import Mathlib

/-!
# Dobutsu Shogi tablebase: offset function, tablebase reader and positions

A shallow embedding of `position_offset` (dobutsutable.h), of
`distance_to_mate` (gamedb.c) and of the position type with `null_move`,
`gote_moves` and `INITIAL_POSITION` (rules.h), with the properties of the
index layout, of the reader and of positions stated and proved over it.

Conventions.
* C `unsigned` is 32 bits wide and `size_t` is 64 bits wide; every arithmetic
  step of the C code is followed by the reduction the C type performs.
* Declarations that live in headers which are not part of the sources at hand
  (the contents of the `cohort_size` table, the sentinels of `dobutsu.h`,
  `encode_pos_check`, `turn_position`) are parameters of the model.
* For the total length of the table base the contents of `cohort_size` are
  needed; they are built from the description of the cohorts in the
  specification (`spec_cohort_size`).
-/

namespace Dobutsu

/-! ## dobutsutable.h -/

/-- Number of cohorts (`COHORT_COUNT`). -/
def COHORT_COUNT : Nat := 63
/-- Number of lion positions stored (`LIONPOS_COUNT`). -/
def LIONPOS_COUNT : Nat := 21
/-- Number of lion positions that can be coded (`LIONPOS_TOTAL_COUNT`). -/
def LIONPOS_TOTAL_COUNT : Nat := 41
/-- Number of ownership masks (`OWNERSHIP_COUNT`). -/
def OWNERSHIP_COUNT : Nat := 64
/-- Total positions in the table base (`POSITION_COUNT`). -/
def POSITION_COUNT : Nat := 255280704
/-- Bound on the number of aliases of a position code (`MAX_PCALIAS`). -/
def MAX_PCALIAS : Nat := 16

/-- Modulus of the C type `unsigned`, 2 ^ 32. -/
def UINT_MOD : Nat := 4294967296
/-- Modulus of the C type `size_t`, 2 ^ 64. -/
def SIZE_MOD : Nat := 18446744073709551616

/-- Record of the table `cohort_size`: `unsigned offset, size;`. -/
structure cohort_size where
  offset : Nat
  size : Nat

/-- The array `cohort_size[COHORT_COUNT]`.  It is declared `extern` in
dobutsutable.h and its initialiser is not among the sources, so the table is a
parameter of everything that reads it. -/
abbrev cohort_table : Type := Fin COHORT_COUNT → cohort_size

/-- The position code `poscode`, a tuple of four unsigned fields. -/
structure poscode where
  ownership : Nat
  cohort : Nat
  lionpos : Nat
  map : Nat

/-- Embedding of `position_offset`.  The result is `none` when `pc.cohort`
indexes past the end of the table.  The product is computed in `unsigned`
arithmetic, the running `index` in `size_t` arithmetic. -/
def position_offset (tbl : cohort_table) (pc : poscode) : Option Nat :=
  if h : pc.cohort < COHORT_COUNT then
    let cs := tbl ⟨pc.cohort, h⟩
    let index := cs.offset % SIZE_MOD
    let index := (index + cs.size *
      ((pc.lionpos * OWNERSHIP_COUNT % UINT_MOD + pc.ownership) % UINT_MOD) % UINT_MOD) % SIZE_MOD
    let index := (index + pc.map) % SIZE_MOD
    some index
  else
    none

/-- The three places where `position_offset` could wrap, for a record `cs` of
the table: the stride index, the `unsigned` product, and the `size_t` sum. -/
def no_wrap (cs : cohort_size) (pc : poscode) : Prop :=
  pc.lionpos * OWNERSHIP_COUNT + pc.ownership < UINT_MOD ∧
  cs.size * (pc.lionpos * OWNERSHIP_COUNT + pc.ownership) < UINT_MOD ∧
  cs.offset + cs.size * (pc.lionpos * OWNERSHIP_COUNT + pc.ownership) + pc.map < SIZE_MOD

instance (cs : cohort_size) (pc : poscode) : Decidable (no_wrap cs pc) := by
  unfold no_wrap; infer_instance

/-- The fields of a record of `cohort_size` are values of the C type
`unsigned`. -/
def unsigned_fields (cs : cohort_size) : Prop :=
  cs.offset < UINT_MOD ∧ cs.size < UINT_MOD

instance (cs : cohort_size) : Decidable (unsigned_fields cs) := by
  unfold unsigned_fields; infer_instance

/-- Sum over all cohorts of `size * k * OWNERSHIP_COUNT`, where `k` is the
number of lion positions per cohort. -/
def cohort_total (tbl : cohort_table) (k : Nat) : Nat :=
  ((List.finRange COHORT_COUNT).map (fun c => (tbl c).size * k * OWNERSHIP_COUNT)).sum

/-- Sum of the `size` fields of the table. -/
def size_total (tbl : cohort_table) : Nat :=
  ((List.finRange COHORT_COUNT).map (fun c => (tbl c).size)).sum

/-- A table in which every cohort has size 4 and the regions are laid out one
after the other with `LIONPOS_COUNT` lion positions each. -/
def uniform_table : cohort_table :=
  fun c => { offset := c.val * (4 * LIONPOS_COUNT * OWNERSHIP_COUNT), size := 4 }

/-- The data of a cohort, `size * LIONPOS_COUNT * OWNERSHIP_COUNT` entries, fits
in the array `positions[POSITION_COUNT]` of `struct tablebase`. -/
def fits_table_base (cs : cohort_size) : Prop :=
  cs.size * LIONPOS_COUNT * OWNERSHIP_COUNT ≤ POSITION_COUNT

instance (cs : cohort_size) : Decidable (fits_table_base cs) := by
  unfold fits_table_base; infer_instance

/-! ## gamedb.c -/

/-- Conversion of an `int` to the 32-bit unsigned type `pos_code`. -/
def to_unsigned (i : Int) : Nat := (i % (UINT_MOD : Int)).toNat

/-- Conversion of a 32-bit unsigned value to `int` (two's complement). -/
def to_int (n : Nat) : Int :=
  if n % UINT_MOD < 2147483648 then ((n % UINT_MOD : Nat) : Int)
  else ((n % UINT_MOD : Nat) : Int) - (UINT_MOD : Int)

/-- The values of the C type `int`. -/
def int_range (i : Int) : Prop := -2147483648 ≤ i ∧ i < 2147483648

instance (i : Int) : Decidable (int_range i) := by
  unfold int_range; infer_instance

/-- The stdio constant `EOF`. -/
def EOF : Int := -1
/-- The errno value `EINVAL`. -/
def EINVAL : Int := 22

/-- Declarations of dobutsu.h that gamedb.c uses.  The header is not among the
sources, so the sentinels, the turn constants, the encoder and the turn
operation are parameters; `position` is the position type of that header and
`pos_code` is a 32-bit unsigned integer (displaytest.c prints it with `%u`). -/
structure dobutsu_h (position : Type) where
  POS_INVALID : Int
  POS_SENTE : Int
  POS_DRAW : Int
  POS_IOERROR : Int
  TURN_SENTE : Int
  TURN_GOTE : Int
  encode_pos_check : position → Nat
  turn_position : position → position

/-- Operations performed on the tablebase stream, in the order they happen. -/
inductive io_op where
  | seek (off : Nat)
  | read
  deriving DecidableEq

/-- The stdio stream `db->db_file`: the bytes of the file, the file position,
the end-of-file and error indicators, and the behaviour of the device:
`seek_fault off` is the errno with which positioning at `off` fails, and
`read_fault pos` the errno with which reading at `pos` fails (`none` when the
operation succeeds). -/
structure FILE where
  bytes : List Nat
  pos : Nat
  eof_ind : Bool
  err_ind : Bool
  seek_fault : Nat → Option Int
  read_fault : Nat → Option Int

/-- State that `distance_to_mate` can touch: the stream of the handle, `errno`,
and the log of stream operations. -/
structure world where
  db_file : FILE
  errno : Int
  trace : List io_op

/-- Embedding of `fseeko(f, off, SEEK_SET)`: on failure returns -1 and sets
`errno`; on success sets the position and clears the end-of-file indicator. -/
def fseeko (w : world) (off : Nat) : Int × world :=
  match w.db_file.seek_fault off with
  | some e => (-1, { w with errno := e, trace := w.trace ++ [io_op.seek off] })
  | none =>
    (0, { w with db_file := { w.db_file with pos := off, eof_ind := false },
                 trace := w.trace ++ [io_op.seek off] })

/-- Embedding of `getc(f)`: a read error sets the error indicator and `errno`
and yields `EOF`; past the last byte the end-of-file indicator is set and `EOF`
is returned; otherwise the byte at the position is returned as an
`unsigned char` and the position advances. -/
def getc (w : world) : Int × world :=
  match w.db_file.read_fault w.db_file.pos with
  | some e =>
    (EOF, { w with db_file := { w.db_file with err_ind := true }, errno := e,
                   trace := w.trace ++ [io_op.read] })
  | none =>
    match w.db_file.bytes[w.db_file.pos]? with
    | some b =>
      (((b % 256 : Nat) : Int),
        { w with db_file := { w.db_file with pos := w.db_file.pos + 1 },
                 trace := w.trace ++ [io_op.read] })
    | none =>
      (EOF, { w with db_file := { w.db_file with eof_ind := true },
                     trace := w.trace ++ [io_op.read] })

/-- Embedding of `ferror(f)`. -/
def ferror (w : world) : Bool := w.db_file.err_ind

/-- The position code that `distance_to_mate` computes for a query: the
position is turned first when Gote is to move. -/
def query_code {position : Type} (D : dobutsu_h position) (pos : position) (to_move : Int) : Nat :=
  if to_move = D.TURN_GOTE then D.encode_pos_check (D.turn_position pos)
  else D.encode_pos_check pos

/-- Embedding of `distance_to_mate`: the returned `int` and the state after the
call. -/
def distance_to_mate {position : Type} (D : dobutsu_h position) (w : world)
    (pos : position) (to_move : Int) : Int × world :=
  let pc := query_code D pos to_move
  if pc = to_unsigned D.POS_SENTE then
    (0, w)
  else if pc = to_unsigned D.POS_INVALID then
    (to_int pc, { w with errno := EINVAL })
  else
    let r := fseeko w pc
    if r.1 ≠ 0 then
      (D.POS_IOERROR, r.2)
    else
      let g := getc r.2
      let distance := g.1
      if distance = EOF then
        (D.POS_IOERROR, if !ferror g.2 then { g.2 with errno := EINVAL } else g.2)
      else if distance = 0xfe then
        (D.POS_DRAW, g.2)
      else if distance = 0xff then
        (D.POS_IOERROR, { g.2 with errno := EINVAL })
      else
        (distance, g.2)

/-- A small instance of the declarations of dobutsu.h, for evaluating the
reader on concrete inputs: positions are integers, turning negates, code 0 is
reported as invalid, negative positions as already won, and a positive
position `n` has offset `n - 1`. -/
def sample_h : dobutsu_h Int where
  POS_INVALID := -1
  POS_SENTE := -2
  POS_DRAW := -4
  POS_IOERROR := -5
  TURN_SENTE := 0
  TURN_GOTE := 1
  encode_pos_check := fun p =>
    if p = 0 then to_unsigned (-1) else if p < 0 then to_unsigned (-2) else (p - 1).toNat
  turn_position := fun p => -p

/-- A stream over the given bytes on a device that never fails. -/
def sample_file (bytes : List Nat) : FILE where
  bytes := bytes
  pos := 0
  eof_ind := false
  err_ind := false
  seek_fault := fun _ => none
  read_fault := fun _ => none

/-- A fresh state over the given file contents. -/
def sample_world (bytes : List Nat) : world where
  db_file := sample_file bytes
  errno := 0
  trace := []

/-! ## rules.h -/

/-- Piece number of the first chick (`CHCK_S`). -/
def CHCK_S : Nat := 0
/-- Piece number of the second chick (`CHCK_G`). -/
def CHCK_G : Nat := 1
/-- Piece number of the first giraffe (`GIRA_S`). -/
def GIRA_S : Nat := 2
/-- Piece number of the second giraffe (`GIRA_G`). -/
def GIRA_G : Nat := 3
/-- Piece number of the first elephant (`ELPH_S`). -/
def ELPH_S : Nat := 4
/-- Piece number of the second elephant (`ELPH_G`). -/
def ELPH_G : Nat := 5
/-- Piece number of the lion of Sente (`LION_S`). -/
def LION_S : Nat := 6
/-- Piece number of the lion of Gote (`LION_G`). -/
def LION_G : Nat := 7
/-- Number of pieces (`PIECE_COUNT`). -/
def PIECE_COUNT : Nat := 8
/-- Number of squares of the board (`SQUARE_COUNT`). -/
def SQUARE_COUNT : Nat := 12
/-- Square value of a piece that is not on the board (`IN_HAND`). -/
def IN_HAND : Nat := 12
/-- Amount added to the square of a piece owned by Gote (`GOTE_PIECE`). -/
def GOTE_PIECE : Nat := 16
/-- Status bit: is `CHCK_S` a rooster (`ROST_S`). -/
def ROST_S : Nat := 1 <<< CHCK_S
/-- Status bit: is `CHCK_G` a rooster (`ROST_G`). -/
def ROST_G : Nat := 1 <<< CHCK_G
/-- Status bit: is it the move of Gote (`GOTE_MOVES`). -/
def GOTE_MOVES : Nat := 1 <<< 8
/-- All flags of the status word (`POS_FLAGS`). -/
def POS_FLAGS : Nat := GOTE_MOVES

/-- The `struct position` of rules.h: `unsigned char pieces[PIECE_COUNT]`,
`unsigned status`, `unsigned map`. -/
structure position where
  pieces : Fin PIECE_COUNT → Nat
  status : Nat
  map : Nat

/-- The macro `INITIAL_POSITION`.  The constants of `map` are octal in the
source, and `<<` binds tighter than `|`. -/
def INITIAL_POSITION : position where
  pieces := ![0x04, 0x17, 0x00, 0x1b, 0x02, 0x19, 0x01, 0x1a]
  status := 0
  map := 0o27 ||| (0o7200 <<< GOTE_PIECE)

/-- Embedding of `gote_moves`: `!!(p->status & GOTE_MOVES)`. -/
def gote_moves (p : position) : Int :=
  if p.status &&& GOTE_MOVES ≠ 0 then 1 else 0

/-- Embedding of `null_move`: `p->status ^= GOTE_MOVES`, the other fields are
not assigned.  The exclusive or of two `unsigned` values cannot wrap. -/
def null_move (p : position) : position :=
  { p with status := p.status ^^^ GOTE_MOVES }

/-- Square part of a piece value: the value without the `GOTE_PIECE` bit. -/
def square_of (v : Nat) : Nat := v % GOTE_PIECE

/-- Whether a piece value carries the `GOTE_PIECE` bit. -/
def owned_by_gote (v : Nat) : Bool := v &&& GOTE_PIECE ≠ 0

/-- The occupancy bitmap that the pieces determine: the bitwise or, over the
pieces that are on the board, of `1 << pieces[i]`. -/
def map_of_pieces (pieces : Fin PIECE_COUNT → Nat) : Nat :=
  (List.finRange PIECE_COUNT).foldl
    (fun m i => if square_of (pieces i) < SQUARE_COUNT then m ||| (1 <<< pieces i) else m) 0

/-! ## Contents of the cohort tables -/

/-- Modelled from the spec: the key of a cohort, missing with the initialiser
of `cohort_info`: the numbers of chicks, giraffes and elephants on the board
(each 0 to 2) and the promotion bits of the chick slots. -/
structure cohort_key where
  chicks : Nat
  giraffes : Nat
  elephants : Nat
  status : Nat

/-- Modelled from the spec: the cohorts of the missing tables.  There are
3 * 3 * 3 combinations of on-board counts, and a chick on the board may be a
chick or a rooster, so a cohort with `c` chicks on the board has one of the
`2 ^ c` settings of the promotion bits of those chicks (a chick in hand has
its bit clear).  The order of the cohorts is not fixed by the specification;
sums over all cohorts do not depend on it. -/
def spec_cohorts : List cohort_key :=
  [0, 1, 2].flatMap fun c => (List.range (2 ^ c)).flatMap fun s =>
    [0, 1, 2].flatMap fun g => [0, 1, 2].map fun e => ⟨c, g, e, s⟩

/-- Modelled from the spec: the radix of one piece kind in `map`, missing with
the `sizes` of `cohort_info`: the number of ways to put `n` pieces of the kind
on `free` empty squares, a pair being ordered by ascending square. -/
def radix_size (free n : Nat) : Nat :=
  match n with
  | 0 => 1
  | 1 => free
  | _ => free * (free - 1) / 2

/-- Modelled from the spec: the `size` of a cohort, missing with the
initialiser of `cohort_size`: the product of the radix sizes of chicks,
giraffes and elephants, placed in this order on the squares that the two
lions and the kinds placed before leave empty. -/
def spec_size (k : cohort_key) : Nat :=
  radix_size (SQUARE_COUNT - 2) k.chicks
    * radix_size (SQUARE_COUNT - 2 - k.chicks) k.giraffes
    * radix_size (SQUARE_COUNT - 2 - k.chicks - k.giraffes) k.elephants

/-- Modelled from the spec: the sizes of all cohorts, in the order of
`spec_cohorts`. -/
def spec_sizes : List Nat := spec_cohorts.map spec_size

/-- Modelled from the spec: the table `cohort_size`, whose initialiser is
missing from the sources.  The `size` of a cohort is `spec_size`; the regions
are contiguous, so the `offset` of a cohort is the length of the regions
before it, each holding `size * LIONPOS_COUNT * OWNERSHIP_COUNT` entries. -/
def spec_cohort_size : cohort_table := fun c =>
  { offset := ((spec_sizes.take c.val).map (fun s => s * LIONPOS_COUNT * OWNERSHIP_COUNT)).sum,
    size := spec_sizes.getD c.val 0 }

/-! ## Helper lemmas on the offset function -/

theorem position_offset_of_no_wrap (tbl : cohort_table) (pc : poscode)
    (hc : pc.cohort < COHORT_COUNT) (hw : no_wrap (tbl ⟨pc.cohort, hc⟩) pc) :
    position_offset tbl pc =
      some ((tbl ⟨pc.cohort, hc⟩).offset
        + (tbl ⟨pc.cohort, hc⟩).size * (pc.lionpos * OWNERSHIP_COUNT + pc.ownership)
        + pc.map) := by
  obtain ⟨h1, h2, h3⟩ := hw
  have hle : pc.lionpos * OWNERSHIP_COUNT < UINT_MOD := by omega
  have e1 : pc.lionpos * OWNERSHIP_COUNT % UINT_MOD = pc.lionpos * OWNERSHIP_COUNT :=
    Nat.mod_eq_of_lt hle
  have e2 : (pc.lionpos * OWNERSHIP_COUNT + pc.ownership) % UINT_MOD
      = pc.lionpos * OWNERSHIP_COUNT + pc.ownership := Nat.mod_eq_of_lt h1
  have e3 : (tbl ⟨pc.cohort, hc⟩).size * (pc.lionpos * OWNERSHIP_COUNT + pc.ownership) % UINT_MOD
      = (tbl ⟨pc.cohort, hc⟩).size * (pc.lionpos * OWNERSHIP_COUNT + pc.ownership) :=
    Nat.mod_eq_of_lt h2
  have e4 : (tbl ⟨pc.cohort, hc⟩).offset % SIZE_MOD = (tbl ⟨pc.cohort, hc⟩).offset :=
    Nat.mod_eq_of_lt (by omega)
  have e5 : ((tbl ⟨pc.cohort, hc⟩).offset
      + (tbl ⟨pc.cohort, hc⟩).size * (pc.lionpos * OWNERSHIP_COUNT + pc.ownership)) % SIZE_MOD
      = (tbl ⟨pc.cohort, hc⟩).offset
      + (tbl ⟨pc.cohort, hc⟩).size * (pc.lionpos * OWNERSHIP_COUNT + pc.ownership) :=
    Nat.mod_eq_of_lt (by omega)
  simp only [position_offset, hc, dite_true, e1, e2, e3, e4, e5]
  rw [Nat.mod_eq_of_lt h3]

theorem stride_decompose (s q1 m1 q2 m2 : Nat) (h1 : m1 < s) (h2 : m2 < s)
    (h : s * q1 + m1 = s * q2 + m2) : q1 = q2 ∧ m1 = m2 := by
  have hs : 0 < s := by omega
  have hq1 : (s * q1 + m1) / s = q1 := by
    rw [Nat.mul_add_div hs, Nat.div_eq_of_lt h1, Nat.add_zero]
  have hq2 : (s * q2 + m2) / s = q2 := by
    rw [Nat.mul_add_div hs, Nat.div_eq_of_lt h2, Nat.add_zero]
  have hq : q1 = q2 := by rw [← hq1, ← hq2, h]
  subst hq
  exact ⟨rfl, by omega⟩

theorem no_wrap_of_coded (cs : cohort_size) (pc : poscode)
    (hty : unsigned_fields cs) (hfit : fits_table_base cs)
    (hl : pc.lionpos < LIONPOS_TOTAL_COUNT) (ho : pc.ownership < OWNERSHIP_COUNT)
    (hm : pc.map < cs.size) : no_wrap cs pc := by
  obtain ⟨hoff, hsize⟩ := hty
  unfold fits_table_base LIONPOS_COUNT OWNERSHIP_COUNT POSITION_COUNT at hfit
  unfold LIONPOS_TOTAL_COUNT at hl
  unfold OWNERSHIP_COUNT at ho
  unfold UINT_MOD at hoff hsize
  have hprod : cs.size * (pc.lionpos * 64 + pc.ownership) ≤ cs.size * 2623 :=
    Nat.mul_le_mul_left _ (by omega)
  unfold no_wrap OWNERSHIP_COUNT UINT_MOD SIZE_MOD
  refine ⟨by omega, by omega, by omega⟩

theorem position_offset_injective_of_no_wrap (tbl : cohort_table) (c : Fin COHORT_COUNT)
    (a b : poscode) (hac : a.cohort = c.val) (hbc : b.cohort = c.val)
    (hao : a.ownership < OWNERSHIP_COUNT) (hbo : b.ownership < OWNERSHIP_COUNT)
    (ham : a.map < (tbl c).size) (hbm : b.map < (tbl c).size)
    (hwa : no_wrap (tbl c) a) (hwb : no_wrap (tbl c) b)
    (h : position_offset tbl a = position_offset tbl b) :
    a.lionpos = b.lionpos ∧ a.ownership = b.ownership ∧ a.map = b.map := by
  have hca : a.cohort < COHORT_COUNT := by rw [hac]; exact c.isLt
  have hcb : b.cohort < COHORT_COUNT := by rw [hbc]; exact c.isLt
  have ea : (⟨a.cohort, hca⟩ : Fin COHORT_COUNT) = c := Fin.ext hac
  have eb : (⟨b.cohort, hcb⟩ : Fin COHORT_COUNT) = c := Fin.ext hbc
  rw [position_offset_of_no_wrap tbl a hca (by rw [ea]; exact hwa),
    position_offset_of_no_wrap tbl b hcb (by rw [eb]; exact hwb), ea, eb] at h
  have h2 : (tbl c).size * (a.lionpos * OWNERSHIP_COUNT + a.ownership) + a.map
      = (tbl c).size * (b.lionpos * OWNERSHIP_COUNT + b.ownership) + b.map := by
    have := Option.some.inj h
    omega
  obtain ⟨hq, hm⟩ := stride_decompose _ _ _ _ _ ham hbm h2
  unfold OWNERSHIP_COUNT at hq hao hbo
  refine ⟨by omega, by omega, hm⟩

theorem cohort_total_eq (tbl : cohort_table) (k : Nat) :
    cohort_total tbl k = size_total tbl * (k * OWNERSHIP_COUNT) := by
  unfold cohort_total size_total
  rw [← List.sum_map_mul_right]
  congr 1
  apply List.map_congr_left
  intro c _
  ring

/-! ## Helper lemmas on the reader -/

theorem to_int_to_unsigned (i : Int) (h : int_range i) : to_int (to_unsigned i) = i := by
  unfold int_range at h
  unfold to_int to_unsigned UINT_MOD
  split <;> omega

theorem to_unsigned_injective (i j : Int) (hi : int_range i) (hj : int_range j)
    (h : to_unsigned i = to_unsigned j) : i = j := by
  rw [← to_int_to_unsigned i hi, ← to_int_to_unsigned j hj, h]

theorem fseeko_ok (w : world) (off : Nat) (h : w.db_file.seek_fault off = none) :
    fseeko w off =
      (0, { w with db_file := { w.db_file with pos := off, eof_ind := false },
                   trace := w.trace ++ [io_op.seek off] }) := by
  simp [fseeko, h]

theorem fseeko_fail (w : world) (off : Nat) (e : Int) (h : w.db_file.seek_fault off = some e) :
    fseeko w off = (-1, { w with errno := e, trace := w.trace ++ [io_op.seek off] }) := by
  simp [fseeko, h]

theorem distance_to_mate_real {position : Type} (D : dobutsu_h position) (w : world)
    (pos : position) (to_move : Int)
    (hs : query_code D pos to_move ≠ to_unsigned D.POS_SENTE)
    (hi : query_code D pos to_move ≠ to_unsigned D.POS_INVALID) :
    distance_to_mate D w pos to_move =
      if (fseeko w (query_code D pos to_move)).1 ≠ 0 then
        (D.POS_IOERROR, (fseeko w (query_code D pos to_move)).2)
      else if (getc (fseeko w (query_code D pos to_move)).2).1 = EOF then
        (D.POS_IOERROR,
          if !ferror (getc (fseeko w (query_code D pos to_move)).2).2 then
            { (getc (fseeko w (query_code D pos to_move)).2).2 with errno := EINVAL }
          else (getc (fseeko w (query_code D pos to_move)).2).2)
      else if (getc (fseeko w (query_code D pos to_move)).2).1 = 0xfe then
        (D.POS_DRAW, (getc (fseeko w (query_code D pos to_move)).2).2)
      else if (getc (fseeko w (query_code D pos to_move)).2).1 = 0xff then
        (D.POS_IOERROR, { (getc (fseeko w (query_code D pos to_move)).2).2 with errno := EINVAL })
      else
        ((getc (fseeko w (query_code D pos to_move)).2).1,
          (getc (fseeko w (query_code D pos to_move)).2).2) := by
  simp only [distance_to_mate, hs, hi, if_false]

theorem getc_after_seek (w : world) (off b : Nat)
    (hseek : w.db_file.seek_fault off = none) (hread : w.db_file.read_fault off = none)
    (hb : w.db_file.bytes[off]? = some b) :
    getc (fseeko w off).2 =
      (((b % 256 : Nat) : Int),
        { db_file := { w.db_file with pos := off + 1, eof_ind := false },
          errno := w.errno,
          trace := w.trace ++ [io_op.seek off] ++ [io_op.read] }) := by
  rw [fseeko_ok w off hseek]
  simp [getc, hread, hb]

theorem getc_after_seek_eof (w : world) (off : Nat)
    (hseek : w.db_file.seek_fault off = none) (hread : w.db_file.read_fault off = none)
    (hb : w.db_file.bytes[off]? = none) :
    getc (fseeko w off).2 =
      (EOF,
        { db_file := { w.db_file with pos := off, eof_ind := true },
          errno := w.errno,
          trace := w.trace ++ [io_op.seek off] ++ [io_op.read] }) := by
  rw [fseeko_ok w off hseek]
  simp [getc, hread, hb]

theorem getc_after_seek_fault (w : world) (off : Nat) (e : Int)
    (hseek : w.db_file.seek_fault off = none) (hread : w.db_file.read_fault off = some e) :
    getc (fseeko w off).2 =
      (EOF,
        { db_file := { w.db_file with pos := off, eof_ind := false, err_ind := true },
          errno := e,
          trace := w.trace ++ [io_op.seek off] ++ [io_op.read] }) := by
  rw [fseeko_ok w off hseek]
  simp [getc, hread]

/-- Value and state of a query that has a real offset, whose seek and read
succeed and find the byte `b`. -/
theorem distance_to_mate_byte {position : Type} (D : dobutsu_h position) (w : world)
    (pos : position) (to_move : Int) (b : Nat)
    (hs : query_code D pos to_move ≠ to_unsigned D.POS_SENTE)
    (hi : query_code D pos to_move ≠ to_unsigned D.POS_INVALID)
    (hseek : w.db_file.seek_fault (query_code D pos to_move) = none)
    (hread : w.db_file.read_fault (query_code D pos to_move) = none)
    (hb : w.db_file.bytes[query_code D pos to_move]? = some b) (hb256 : b < 256) :
    (distance_to_mate D w pos to_move).1 =
      if b = 0xfe then D.POS_DRAW else if b = 0xff then D.POS_IOERROR else (b : Int) := by
  rw [distance_to_mate_real D w pos to_move hs hi,
    getc_after_seek w _ b hseek hread hb, fseeko_ok w _ hseek]
  have hmod : b % 256 = b := Nat.mod_eq_of_lt hb256
  have hne : ((b : Nat) : Int) ≠ EOF := by unfold EOF; omega
  simp only [hmod, hne, ne_eq, not_true_eq_false, if_false]
  by_cases h1 : b = 0xfe
  · subst h1; simp
  · by_cases h2 : b = 0xff
    · subst h2; simp
    · have e1 : ¬ ((b : Int) = 0xfe) := by omega
      have e2 : ¬ ((b : Int) = 0xff) := by omega
      simp [h1, h2, e1, e2]

/-! ## Helper lemmas on the status bits -/

theorem gote_moves_eq_two_pow : GOTE_MOVES = 2 ^ 8 := by
  unfold GOTE_MOVES; rw [Nat.one_shiftLeft]

theorem testBit_xor_gote_moves (s i : Nat) :
    (s ^^^ GOTE_MOVES).testBit i = (if i = 8 then !s.testBit i else s.testBit i) := by
  rw [gote_moves_eq_two_pow, Nat.testBit_xor, Nat.testBit_two_pow]
  by_cases h : i = 8
  · subst h; simp
  · have h2 : ¬ (8 = i) := fun e => h e.symm
    simp [h, h2]

theorem and_gote_moves_ne_zero (s : Nat) : s &&& GOTE_MOVES ≠ 0 ↔ s.testBit 8 = true := by
  rw [gote_moves_eq_two_pow]
  constructor
  · intro h
    by_contra hb
    apply h
    apply Nat.eq_of_testBit_eq
    intro i
    rw [Nat.testBit_and, Nat.testBit_two_pow, Nat.zero_testBit]
    by_cases hi : 8 = i
    · subst hi; simp [hb]
    · simp [hi]
  · intro hb h
    have : (s &&& 2 ^ 8).testBit 8 = true := by
      rw [Nat.testBit_and, Nat.testBit_two_pow, hb]; simp
    rw [h, Nat.zero_testBit] at this
    exact Bool.noConfusion this

theorem xor_gote_moves_and_low (s k : Nat) (hk : k < 8) :
    (s ^^^ GOTE_MOVES) &&& (1 <<< k) = s &&& (1 <<< k) := by
  rw [gote_moves_eq_two_pow, Nat.one_shiftLeft]
  apply Nat.eq_of_testBit_eq
  intro i
  rw [Nat.testBit_and, Nat.testBit_and, Nat.testBit_xor, Nat.testBit_two_pow,
    Nat.testBit_two_pow]
  by_cases hi : k = i
  · have h8 : ¬ (8 = i) := by omega
    simp [hi, h8]
  · simp [hi]

/-! ## Claims on the offset function -/

/-- C1: for a coded tuple whose cohort is below `COHORT_COUNT`, whose ownership
is below `OWNERSHIP_COUNT`, whose map is below the size of its cohort and whose
values do not wrap the unsigned arithmetic, `position_offset` is
`offset + size * (lionpos * 64 + ownership) + map`. -/
theorem position_offset_formula (tbl : cohort_table) (pc : poscode)
    (hc : pc.cohort < COHORT_COUNT) (_ho : pc.ownership < OWNERSHIP_COUNT)
    (_hm : pc.map < (tbl ⟨pc.cohort, hc⟩).size)
    (hw : no_wrap (tbl ⟨pc.cohort, hc⟩) pc) :
    position_offset tbl pc =
      some ((tbl ⟨pc.cohort, hc⟩).offset
        + (tbl ⟨pc.cohort, hc⟩).size * (pc.lionpos * 64 + pc.ownership)
        + pc.map) :=
  position_offset_of_no_wrap tbl pc hc hw

/-- Witness of C1: cohort 2, lion position 1, ownership 3, map 1 in the uniform
table. -/
theorem position_offset_formula_witness :
    position_offset uniform_table ⟨3, 2, 1, 1⟩ = some (2 * 5376 + 4 * (1 * 64 + 3) + 1) :=
  position_offset_formula uniform_table ⟨3, 2, 1, 1⟩ (by decide) (by decide) (by decide)
    (by decide)

/-- C2: `position_offset` has no collisions inside a cohort.  For two coded
tuples of the same cohort `c` (lion position below `LIONPOS_TOTAL_COUNT`) with
ownership below `OWNERSHIP_COUNT` and map below the size of the cohort, equal
offsets force equal lion position, ownership and map.  The record of the
cohort holds `unsigned` values and its data fits in the table base. -/
theorem position_offset_no_collision (tbl : cohort_table) (c : Fin COHORT_COUNT)
    (a b : poscode) (hty : unsigned_fields (tbl c)) (hfit : fits_table_base (tbl c))
    (hac : a.cohort = c.val) (hbc : b.cohort = c.val)
    (hal : a.lionpos < LIONPOS_TOTAL_COUNT) (hbl : b.lionpos < LIONPOS_TOTAL_COUNT)
    (hao : a.ownership < OWNERSHIP_COUNT) (hbo : b.ownership < OWNERSHIP_COUNT)
    (ham : a.map < (tbl c).size) (hbm : b.map < (tbl c).size)
    (h : position_offset tbl a = position_offset tbl b) :
    a.lionpos = b.lionpos ∧ a.ownership = b.ownership ∧ a.map = b.map :=
  position_offset_injective_of_no_wrap tbl c a b hac hbc hao hbo ham hbm
    (no_wrap_of_coded (tbl c) a hty hfit hal hao ham)
    (no_wrap_of_coded (tbl c) b hty hfit hbl hbo hbm) h

/-- Witness of C2: the tuple with ownership 3, lion position 40 and map 1 in
cohort 2 of the uniform table. -/
theorem position_offset_no_collision_witness :
    (⟨3, 2, 40, 1⟩ : poscode).lionpos = (⟨3, 2, 40, 1⟩ : poscode).lionpos ∧
    (⟨3, 2, 40, 1⟩ : poscode).ownership = (⟨3, 2, 40, 1⟩ : poscode).ownership ∧
    (⟨3, 2, 40, 1⟩ : poscode).map = (⟨3, 2, 40, 1⟩ : poscode).map :=
  position_offset_no_collision uniform_table ⟨2, by decide⟩ ⟨3, 2, 40, 1⟩ ⟨3, 2, 40, 1⟩
    (by decide) (by decide) (by decide) (by decide) (by decide) (by decide) (by decide)
    (by decide) (by decide) (by decide) rfl

/-- C3, as stated, fails whatever the table holds: the sum over the cohorts of
`size * LIONPOS_TOTAL_COUNT * OWNERSHIP_COUNT` is a multiple of 41, and
`POSITION_COUNT` is not. -/
theorem cohort_total_ne_position_count :
    ¬ ∃ tbl : cohort_table, cohort_total tbl LIONPOS_TOTAL_COUNT = POSITION_COUNT := by
  rintro ⟨tbl, h⟩
  rw [cohort_total_eq] at h
  unfold LIONPOS_TOTAL_COUNT OWNERSHIP_COUNT POSITION_COUNT at h
  omega

/-- C3, amended: with `LIONPOS_COUNT` in the place of `LIONPOS_TOTAL_COUNT`,
the table has `COHORT_COUNT` cohorts and the sum over all of them of
`size * LIONPOS_COUNT * OWNERSHIP_COUNT` is exactly `POSITION_COUNT`, the
length of the table base. -/
theorem spec_cohort_total_position_count :
    spec_cohorts.length = COHORT_COUNT ∧
    cohort_total spec_cohort_size LIONPOS_COUNT = POSITION_COUNT := by
  decide

/-! ## Claims on the reader -/

/-- C4: for a query whose code is neither `POS_SENTE` nor `POS_INVALID`, whose
seek succeeds and whose read delivers the byte `b` stored at offset `pc`:
if `b` is `0xFE` the result is `POS_DRAW`, and if `b` is at most `0xFD` the
result is `b` itself. -/
theorem distance_to_mate_reads_byte {position : Type} (D : dobutsu_h position) (w : world)
    (pos : position) (to_move : Int) (b : Nat)
    (hs : query_code D pos to_move ≠ to_unsigned D.POS_SENTE)
    (hi : query_code D pos to_move ≠ to_unsigned D.POS_INVALID)
    (hseek : w.db_file.seek_fault (query_code D pos to_move) = none)
    (hread : w.db_file.read_fault (query_code D pos to_move) = none)
    (hb : w.db_file.bytes[query_code D pos to_move]? = some b) :
    (b = 0xfe → (distance_to_mate D w pos to_move).1 = D.POS_DRAW) ∧
    (b ≤ 0xfd → (distance_to_mate D w pos to_move).1 = (b : Int)) := by
  constructor
  · intro h
    rw [distance_to_mate_byte D w pos to_move b hs hi hseek hread hb (by omega)]
    simp [h]
  · intro h
    rw [distance_to_mate_byte D w pos to_move b hs hi hseek hread hb (by omega)]
    have h1 : b ≠ 0xfe := by omega
    have h2 : b ≠ 0xff := by omega
    simp [h1, h2]

/-- Witness of C4: the file `[7, 0xfe, 0xff, 0]` queried at offset 0. -/
theorem distance_to_mate_reads_byte_witness :
    (7 = 0xfe → (distance_to_mate sample_h (sample_world [7, 0xfe, 0xff, 0]) 1 0).1
      = sample_h.POS_DRAW) ∧
    (7 ≤ 0xfd → (distance_to_mate sample_h (sample_world [7, 0xfe, 0xff, 0]) 1 0).1
      = ((7 : Nat) : Int)) :=
  distance_to_mate_reads_byte sample_h (sample_world [7, 0xfe, 0xff, 0]) 1 0 7
    (by decide) (by decide) rfl rfl (by decide)

/-- C5: a query that reaches the file and reads the byte `0xFF` returns
`POS_IOERROR` with `errno` set to `EINVAL`; with `POS_IOERROR` negative and
different from `POS_DRAW` (the doc comment of `distance_to_mate`), the value
is not 255, not a distance 0..253 and not `POS_DRAW`. -/
theorem distance_to_mate_corrupt_entry {position : Type} (D : dobutsu_h position) (w : world)
    (pos : position) (to_move : Int)
    (hneg : D.POS_IOERROR < 0) (hdraw : D.POS_IOERROR ≠ D.POS_DRAW)
    (hs : query_code D pos to_move ≠ to_unsigned D.POS_SENTE)
    (hi : query_code D pos to_move ≠ to_unsigned D.POS_INVALID)
    (hseek : w.db_file.seek_fault (query_code D pos to_move) = none)
    (hread : w.db_file.read_fault (query_code D pos to_move) = none)
    (hb : w.db_file.bytes[query_code D pos to_move]? = some 0xff) :
    (distance_to_mate D w pos to_move).1 = D.POS_IOERROR ∧
    (distance_to_mate D w pos to_move).2.errno = EINVAL ∧
    (distance_to_mate D w pos to_move).1 ≠ 255 ∧
    ¬ (0 ≤ (distance_to_mate D w pos to_move).1 ∧ (distance_to_mate D w pos to_move).1 ≤ 253) ∧
    (distance_to_mate D w pos to_move).1 ≠ D.POS_DRAW := by
  have hval : (distance_to_mate D w pos to_move).1 = D.POS_IOERROR := by
    rw [distance_to_mate_byte D w pos to_move 0xff hs hi hseek hread hb (by decide)]
    simp
  have herr : (distance_to_mate D w pos to_move).2.errno = EINVAL := by
    rw [distance_to_mate_real D w pos to_move hs hi,
      getc_after_seek w _ 0xff hseek hread hb, fseeko_ok w _ hseek]
    simp [EOF]
  rw [hval]
  exact ⟨rfl, herr, by omega, by omega, hdraw⟩

/-- Witness of C5: the file `[7, 0xfe, 0xff, 0]` queried at offset 2. -/
theorem distance_to_mate_corrupt_entry_witness :
    (distance_to_mate sample_h (sample_world [7, 0xfe, 0xff, 0]) 3 0).1 = sample_h.POS_IOERROR ∧
    (distance_to_mate sample_h (sample_world [7, 0xfe, 0xff, 0]) 3 0).2.errno = EINVAL ∧
    (distance_to_mate sample_h (sample_world [7, 0xfe, 0xff, 0]) 3 0).1 ≠ 255 ∧
    ¬ (0 ≤ (distance_to_mate sample_h (sample_world [7, 0xfe, 0xff, 0]) 3 0).1 ∧
      (distance_to_mate sample_h (sample_world [7, 0xfe, 0xff, 0]) 3 0).1 ≤ 253) ∧
    (distance_to_mate sample_h (sample_world [7, 0xfe, 0xff, 0]) 3 0).1 ≠ sample_h.POS_DRAW :=
  distance_to_mate_corrupt_entry sample_h (sample_world [7, 0xfe, 0xff, 0]) 3 0
    (by decide) (by decide) (by decide) (by decide) rfl rfl (by decide)

/-- C6: when the encoder reports `POS_SENTE` for the query, `distance_to_mate`
returns 0 and the state is the state before the call: no seek and no read is
logged, the stream and `errno` are untouched. -/
theorem distance_to_mate_terminal {position : Type} (D : dobutsu_h position) (w : world)
    (pos : position) (to_move : Int)
    (hs : query_code D pos to_move = to_unsigned D.POS_SENTE) :
    distance_to_mate D w pos to_move = (0, w) := by
  simp [distance_to_mate, hs]

/-- Witness of C6: position -3 is reported as won by the sample encoder. -/
theorem distance_to_mate_terminal_witness :
    distance_to_mate sample_h (sample_world [7, 0xfe, 0xff, 0]) (-3) 0
      = (0, sample_world [7, 0xfe, 0xff, 0]) :=
  distance_to_mate_terminal sample_h (sample_world [7, 0xfe, 0xff, 0]) (-3) 0 (by decide)

/-- C7, as stated, fails: over the file `[0]`, the query of position 1 has the
real offset 0, is answered from the file, and returns 0, which is also what
the terminal query of position -1 returns. -/
theorem terminal_value_not_distinct :
    query_code sample_h 1 0 ≠ to_unsigned sample_h.POS_SENTE ∧
    query_code sample_h 1 0 ≠ to_unsigned sample_h.POS_INVALID ∧
    (sample_world [0]).db_file.seek_fault (query_code sample_h 1 0) = none ∧
    (sample_world [0]).db_file.read_fault (query_code sample_h 1 0) = none ∧
    (sample_world [0]).db_file.bytes[query_code sample_h 1 0]? = some 0 ∧
    query_code sample_h (-1) 0 = to_unsigned sample_h.POS_SENTE ∧
    (distance_to_mate sample_h (sample_world [0]) 1 0).1
      = (distance_to_mate sample_h (sample_world [0]) (-1) 0).1 := by
  decide

/-- C7, amended: with `POS_DRAW` and `POS_IOERROR` negative, a query with a
real offset whose seek and read succeed with the byte `b` returns the value of
a terminal query exactly when `b` is `0x00`; for every other byte the two
values differ. -/
theorem terminal_value_distinct_iff {position : Type} (D : dobutsu_h position) (w w0 : world)
    (pos pos0 : position) (to_move to_move0 : Int) (b : Nat)
    (hdraw : D.POS_DRAW < 0) (hio : D.POS_IOERROR < 0)
    (hs : query_code D pos to_move ≠ to_unsigned D.POS_SENTE)
    (hi : query_code D pos to_move ≠ to_unsigned D.POS_INVALID)
    (hseek : w.db_file.seek_fault (query_code D pos to_move) = none)
    (hread : w.db_file.read_fault (query_code D pos to_move) = none)
    (hb : w.db_file.bytes[query_code D pos to_move]? = some b) (hb256 : b < 256)
    (ht : query_code D pos0 to_move0 = to_unsigned D.POS_SENTE) :
    (distance_to_mate D w pos to_move).1 = (distance_to_mate D w0 pos0 to_move0).1 ↔ b = 0 := by
  have h0 : (distance_to_mate D w0 pos0 to_move0).1 = 0 := by
    simp [distance_to_mate, ht]
  rw [h0, distance_to_mate_byte D w pos to_move b hs hi hseek hread hb hb256]
  split
  · omega
  · split <;> omega

/-- Witness of C7 amended: byte 7 at offset 0 against position 1 with Gote to
move, which is terminal after turning. -/
theorem terminal_value_distinct_iff_witness :
    (distance_to_mate sample_h (sample_world [7, 0xfe, 0xff, 0]) 1 0).1
      = (distance_to_mate sample_h (sample_world []) 1 1).1 ↔ 7 = 0 :=
  terminal_value_distinct_iff sample_h (sample_world [7, 0xfe, 0xff, 0]) (sample_world []) 1 1
    0 1 7 (by decide) (by decide) (by decide) (by decide) rfl rfl (by decide) (by decide)
    (by decide)

/-- C8: when the encoder reports `POS_INVALID` for the query (the sentinels
`POS_INVALID` and `POS_SENTE` being different `int` values),
`distance_to_mate` returns `POS_INVALID`, sets `errno` to `EINVAL`, and does
not seek or read: the stream and the log are those before the call. -/
theorem distance_to_mate_invalid {position : Type} (D : dobutsu_h position) (w : world)
    (pos : position) (to_move : Int)
    (hri : int_range D.POS_INVALID) (hrs : int_range D.POS_SENTE)
    (hne : D.POS_INVALID ≠ D.POS_SENTE)
    (hi : query_code D pos to_move = to_unsigned D.POS_INVALID) :
    (distance_to_mate D w pos to_move).1 = D.POS_INVALID ∧
    (distance_to_mate D w pos to_move).2.errno = EINVAL ∧
    (distance_to_mate D w pos to_move).2.db_file = w.db_file ∧
    (distance_to_mate D w pos to_move).2.trace = w.trace := by
  have hs : to_unsigned D.POS_INVALID ≠ to_unsigned D.POS_SENTE :=
    fun h => hne (to_unsigned_injective _ _ hri hrs h)
  simp [distance_to_mate, hi, hs, to_int_to_unsigned _ hri]

/-- Witness of C8: position 0 is reported as invalid by the sample encoder. -/
theorem distance_to_mate_invalid_witness :
    (distance_to_mate sample_h (sample_world [7]) 0 0).1 = sample_h.POS_INVALID ∧
    (distance_to_mate sample_h (sample_world [7]) 0 0).2.errno = EINVAL ∧
    (distance_to_mate sample_h (sample_world [7]) 0 0).2.db_file = (sample_world [7]).db_file ∧
    (distance_to_mate sample_h (sample_world [7]) 0 0).2.trace = (sample_world [7]).trace :=
  distance_to_mate_invalid sample_h (sample_world [7]) 0 0 (by decide) (by decide) (by decide)
    (by decide)

/-- C9: for a query with a real offset, if the seek fails, or the read fails,
or the read finds the file ended before the offset, the result is
`POS_IOERROR`; with `POS_IOERROR` negative and different from `POS_DRAW` it is
neither a distance nor `POS_DRAW`; and when the read hits end-of-file on a
stream whose error indicator is clear, `errno` is `EINVAL` afterwards. -/
theorem distance_to_mate_io_failure {position : Type} (D : dobutsu_h position) (w : world)
    (pos : position) (to_move : Int)
    (hneg : D.POS_IOERROR < 0) (hdraw : D.POS_IOERROR ≠ D.POS_DRAW)
    (hs : query_code D pos to_move ≠ to_unsigned D.POS_SENTE)
    (hi : query_code D pos to_move ≠ to_unsigned D.POS_INVALID)
    (hfail : w.db_file.seek_fault (query_code D pos to_move) ≠ none ∨
      w.db_file.read_fault (query_code D pos to_move) ≠ none ∨
      w.db_file.bytes[query_code D pos to_move]? = none) :
    (distance_to_mate D w pos to_move).1 = D.POS_IOERROR ∧
    ¬ (0 ≤ (distance_to_mate D w pos to_move).1 ∧ (distance_to_mate D w pos to_move).1 ≤ 253) ∧
    (distance_to_mate D w pos to_move).1 ≠ D.POS_DRAW ∧
    (w.db_file.seek_fault (query_code D pos to_move) = none →
      w.db_file.read_fault (query_code D pos to_move) = none →
      w.db_file.bytes[query_code D pos to_move]? = none →
      w.db_file.err_ind = false →
      (distance_to_mate D w pos to_move).2.errno = EINVAL) := by
  have hval : (distance_to_mate D w pos to_move).1 = D.POS_IOERROR := by
    rw [distance_to_mate_real D w pos to_move hs hi]
    cases hseek : w.db_file.seek_fault (query_code D pos to_move) with
    | some e =>
      rw [fseeko_fail w _ e hseek]
      simp
    | none =>
      cases hread : w.db_file.read_fault (query_code D pos to_move) with
      | some e =>
        rw [getc_after_seek_fault w _ e hseek hread, fseeko_ok w _ hseek]
        simp
      | none =>
        have hb : w.db_file.bytes[query_code D pos to_move]? = none := by
          rcases hfail with h | h | h
          · exact absurd hseek h
          · exact absurd hread h
          · exact h
        rw [getc_after_seek_eof w _ hseek hread hb, fseeko_ok w _ hseek]
        simp
  refine ⟨hval, ?_, ?_, ?_⟩
  · rw [hval]; omega
  · rw [hval]; exact hdraw
  · intro hseek hread hb herr
    rw [distance_to_mate_real D w pos to_move hs hi,
      getc_after_seek_eof w _ hseek hread hb, fseeko_ok w _ hseek]
    simp [ferror, herr]

/-- Witness of C9: the one-byte file `[7]` queried at offset 8. -/
theorem distance_to_mate_io_failure_witness :
    (distance_to_mate sample_h (sample_world [7]) 9 0).1 = sample_h.POS_IOERROR ∧
    ¬ (0 ≤ (distance_to_mate sample_h (sample_world [7]) 9 0).1 ∧
      (distance_to_mate sample_h (sample_world [7]) 9 0).1 ≤ 253) ∧
    (distance_to_mate sample_h (sample_world [7]) 9 0).1 ≠ sample_h.POS_DRAW ∧
    ((sample_world [7]).db_file.seek_fault (query_code sample_h 9 0) = none →
      (sample_world [7]).db_file.read_fault (query_code sample_h 9 0) = none →
      (sample_world [7]).db_file.bytes[query_code sample_h 9 0]? = none →
      (sample_world [7]).db_file.err_ind = false →
      (distance_to_mate sample_h (sample_world [7]) 9 0).2.errno = EINVAL) :=
  distance_to_mate_io_failure sample_h (sample_world [7]) 9 0 (by decide) (by decide)
    (by decide) (by decide) (Or.inr (Or.inr (by decide)))

/-- C10: turn symmetry of the reader.  With `turn_position` undoing itself on
`p`, the query of `p` with Sente to move and the query of `turn_position p`
with Gote to move return the same value and leave the same state, for every
state of the tablebase file. -/
theorem distance_to_mate_turn_symmetry {position : Type} (D : dobutsu_h position) (w : world)
    (p : position) (hturn : D.TURN_SENTE ≠ D.TURN_GOTE)
    (hinv : D.turn_position (D.turn_position p) = p) :
    distance_to_mate D w p D.TURN_SENTE
      = distance_to_mate D w (D.turn_position p) D.TURN_GOTE := by
  have hq : query_code D p D.TURN_SENTE = query_code D (D.turn_position p) D.TURN_GOTE := by
    simp [query_code, hturn, hinv]
  simp only [distance_to_mate, hq]

/-- Witness of C10: position 2 of the sample instance over a four-byte file. -/
theorem distance_to_mate_turn_symmetry_witness :
    distance_to_mate sample_h (sample_world [7, 0xfe, 0xff, 0]) 2 sample_h.TURN_SENTE
      = distance_to_mate sample_h (sample_world [7, 0xfe, 0xff, 0])
          (sample_h.turn_position 2) sample_h.TURN_GOTE :=
  distance_to_mate_turn_symmetry sample_h (sample_world [7, 0xfe, 0xff, 0]) 2 (by decide)
    (by decide)

/-! ## Claims on positions and on the region of a cohort -/

/-- C11: `null_move` flips the turn bit only.  The status of the result is the
status of `p` with exactly bit 8 (`GOTE_MOVES`) toggled, `gote_moves` of the
result is `1 - gote_moves p`, the promotion bits `ROST_S` and `ROST_G` are
unchanged, and so are `pieces` and `map`. -/
theorem null_move_flips_turn_only (p : position) :
    (∀ i : Nat, (null_move p).status.testBit i
      = (if i = 8 then !p.status.testBit i else p.status.testBit i)) ∧
    (null_move p).status = p.status ^^^ (1 <<< 8) ∧
    gote_moves (null_move p) = 1 - gote_moves p ∧
    (null_move p).status &&& ROST_S = p.status &&& ROST_S ∧
    (null_move p).status &&& ROST_G = p.status &&& ROST_G ∧
    (null_move p).pieces = p.pieces ∧
    (null_move p).map = p.map := by
  refine ⟨fun i => testBit_xor_gote_moves p.status i, rfl, ?_, ?_, ?_, rfl, rfl⟩
  · have hbit := testBit_xor_gote_moves p.status 8
    have h1 := and_gote_moves_ne_zero (p.status ^^^ GOTE_MOVES)
    have h2 := and_gote_moves_ne_zero p.status
    unfold gote_moves null_move
    simp only [if_true] at hbit
    by_cases hb : p.status.testBit 8 = true
    · have hn : ¬ ((p.status ^^^ GOTE_MOVES) &&& GOTE_MOVES ≠ 0) := by
        rw [h1, hbit, hb]; simp
      rw [if_neg hn, if_pos (h2.mpr hb)]
      rfl
    · have hb0 : p.status.testBit 8 = false := by simpa using hb
      have hy : (p.status ^^^ GOTE_MOVES) &&& GOTE_MOVES ≠ 0 := by
        rw [h1, hbit, hb0]; rfl
      have hn : ¬ (p.status &&& GOTE_MOVES ≠ 0) := by
        rw [h2, hb0]; simp
      rw [if_pos hy, if_neg hn]
      rfl
  · exact xor_gote_moves_and_low p.status CHCK_S (by decide)
  · exact xor_gote_moves_and_low p.status CHCK_G (by decide)

/-- C12: for a coded tuple with lion position below `LIONPOS_TOTAL_COUNT`,
ownership below `OWNERSHIP_COUNT` and map below the size of its cohort,
`position_offset` lies in the region of the cohort: at least `offset` and
below `offset + size * LIONPOS_TOTAL_COUNT * OWNERSHIP_COUNT`.  The record of
the cohort holds values of the type `unsigned`. -/
theorem position_offset_in_region (tbl : cohort_table) (pc : poscode)
    (hc : pc.cohort < COHORT_COUNT) (hty : unsigned_fields (tbl ⟨pc.cohort, hc⟩))
    (hl : pc.lionpos < LIONPOS_TOTAL_COUNT) (ho : pc.ownership < OWNERSHIP_COUNT)
    (hm : pc.map < (tbl ⟨pc.cohort, hc⟩).size) :
    ∃ off, position_offset tbl pc = some off ∧
      (tbl ⟨pc.cohort, hc⟩).offset ≤ off ∧
      off < (tbl ⟨pc.cohort, hc⟩).offset
        + (tbl ⟨pc.cohort, hc⟩).size * LIONPOS_TOTAL_COUNT * OWNERSHIP_COUNT := by
  obtain ⟨hoff, hsize⟩ := hty
  unfold LIONPOS_TOTAL_COUNT at hl
  unfold OWNERSHIP_COUNT at ho
  unfold UINT_MOD at hoff hsize
  have e1 : pc.lionpos * 64 % 4294967296 = pc.lionpos * 64 := Nat.mod_eq_of_lt (by omega)
  have e2 : (pc.lionpos * 64 + pc.ownership) % 4294967296 = pc.lionpos * 64 + pc.ownership :=
    Nat.mod_eq_of_lt (by omega)
  have hx_lt : (tbl ⟨pc.cohort, hc⟩).size * (pc.lionpos * 64 + pc.ownership) % 4294967296
      < 4294967296 := Nat.mod_lt _ (by decide)
  have hx_le : (tbl ⟨pc.cohort, hc⟩).size * (pc.lionpos * 64 + pc.ownership) % 4294967296
      ≤ (tbl ⟨pc.cohort, hc⟩).size * 2623 :=
    le_trans (Nat.mod_le _ _) (Nat.mul_le_mul_left _ (by omega))
  refine ⟨(tbl ⟨pc.cohort, hc⟩).offset
    + (tbl ⟨pc.cohort, hc⟩).size * (pc.lionpos * 64 + pc.ownership) % 4294967296 + pc.map,
    ?_, by omega, ?_⟩
  · simp only [position_offset, hc, dite_true, OWNERSHIP_COUNT, UINT_MOD, SIZE_MOD, e1, e2]
    rw [Nat.mod_eq_of_lt (a := (tbl ⟨pc.cohort, hc⟩).offset) (by omega),
      Nat.mod_eq_of_lt (a := (tbl ⟨pc.cohort, hc⟩).offset + _) (by omega),
      Nat.mod_eq_of_lt (by omega)]
  · unfold LIONPOS_TOTAL_COUNT OWNERSHIP_COUNT
    omega

/-- Witness of C12: cohort 2 of the uniform table at the last lion position. -/
theorem position_offset_in_region_witness :
    ∃ off, position_offset uniform_table ⟨3, 2, 40, 1⟩ = some off ∧
      (uniform_table ⟨2, by decide⟩).offset ≤ off ∧
      off < (uniform_table ⟨2, by decide⟩).offset
        + (uniform_table ⟨2, by decide⟩).size * LIONPOS_TOTAL_COUNT * OWNERSHIP_COUNT :=
  position_offset_in_region uniform_table ⟨3, 2, 40, 1⟩ (by decide) (by decide) (by decide)
    (by decide) (by decide)

/-- C13: the initial setup satisfies the position invariants.  Both lions are
on board squares (below 12, not `IN_HAND`) that differ, `LION_S` is owned by
Sente and `LION_G` by Gote, no two pieces share a board square, every Sente
piece value is below 12 and every Gote piece value is in 16..27, `map` is the
bitmap derived from `pieces`, and the status is 0 (Sente to move, no
promotion bit). -/
theorem initial_position_invariants :
    square_of (INITIAL_POSITION.pieces ⟨LION_S, by decide⟩) < SQUARE_COUNT ∧
    square_of (INITIAL_POSITION.pieces ⟨LION_G, by decide⟩) < SQUARE_COUNT ∧
    square_of (INITIAL_POSITION.pieces ⟨LION_S, by decide⟩) ≠ IN_HAND ∧
    square_of (INITIAL_POSITION.pieces ⟨LION_G, by decide⟩) ≠ IN_HAND ∧
    square_of (INITIAL_POSITION.pieces ⟨LION_S, by decide⟩)
      ≠ square_of (INITIAL_POSITION.pieces ⟨LION_G, by decide⟩) ∧
    owned_by_gote (INITIAL_POSITION.pieces ⟨LION_S, by decide⟩) = false ∧
    owned_by_gote (INITIAL_POSITION.pieces ⟨LION_G, by decide⟩) = true ∧
    (∀ i j : Fin PIECE_COUNT, i ≠ j →
      square_of (INITIAL_POSITION.pieces i) < SQUARE_COUNT →
      square_of (INITIAL_POSITION.pieces i) ≠ square_of (INITIAL_POSITION.pieces j)) ∧
    (∀ i : Fin PIECE_COUNT,
      if owned_by_gote (INITIAL_POSITION.pieces i) = true
      then 16 ≤ INITIAL_POSITION.pieces i ∧ INITIAL_POSITION.pieces i < 28
      else INITIAL_POSITION.pieces i < 12) ∧
    INITIAL_POSITION.map = map_of_pieces INITIAL_POSITION.pieces ∧
    INITIAL_POSITION.status = 0 ∧
    gote_moves INITIAL_POSITION = 0 ∧
    INITIAL_POSITION.status &&& ROST_S = 0 ∧
    INITIAL_POSITION.status &&& ROST_G = 0 := by
  decide

end Dobutsu
